import Mathlib

/-!
Shallow embedding of the scoring and selection-state engine of the
`h5p-multi-media-choice` widget, translated from
`src/scripts/h5p-multi-media-choice-content.js` (class
`MultiMediaChoiceContent`), `src/scripts/h5p-multi-media-choice-option.js`
(class `MultiMediaChoiceOption`) and `src/scripts/h5p-multi-media-choice.js`
(class `MultiMediaChoice`).

The engine state is the part of the DOM/object state that the scoring logic
reads: per option the authored `correct` flag, the `aria-checked` selection
flag and the `aria-disabled` flag, plus the engine fields
`lastSelectedRadioButtonOption`, `isSingleAnswer`, `numberOfCorrectOptions`
and the grading configuration (`singlePoint`, `passPercentage`).  Tab
indexes, CSS classes and the rest of the DOM are presentation only and are
not part of the engine state (the spec's data model, section 3, lists
exactly `correct` / `selected` / `disabled` / position).

JavaScript exceptions are modelled with `Except Unit`: `Except.error ()`
stands for a thrown `TypeError`.  `lastSelectedRadioButtonOption` is an
object reference in the source; it is modelled as an index into the options
list, with a failed lookup mapped to the same error as a null dereference.
-/

/-- The `behaviour.questionType` configuration string. Any value other than
`"auto"` and `"single"` behaves like `"multiple"` in the source
(`questionType === 'auto' ? ... : questionType === 'single'`), so three
constructors suffice. -/
inductive QuestionType where
  | auto
  | single
  | multiple
deriving DecidableEq, Repr

/-- Engine-visible state of one `MultiMediaChoiceOption`: the authored
`correct` flag (`this.correct`), the selection flag (`aria-checked`,
read by `isSelected()`), and the disabled flag (`aria-disabled`, read by
`isDisabled()`). -/
structure OptionState where
  correct : Bool
  selected : Bool
  disabled : Bool
deriving DecidableEq, Repr

/-- Authored parameters, restricted to the fields the scoring core reads:
the list of authored `correct` flags (media descriptors are ignored by the
core) and the grading configuration of `params.behaviour`. -/
structure Params where
  optionsCorrect : List Bool
  questionType : QuestionType
  singlePoint : Bool
  passPercentage : Int
deriving DecidableEq, Repr

/-- Engine state of a `MultiMediaChoiceContent` instance.
`lastSelectedRadioButtonOption` holds the index of the referenced option,
or `none` for JavaScript `null`. -/
structure Content where
  singlePoint : Bool
  passPercentage : Int
  isSingleAnswer : Bool
  numberOfCorrectOptions : Nat
  options : List OptionState
  lastSelectedRadioButtonOption : Option Nat
deriving DecidableEq, Repr

/-- `params.options.filter(option => option.correct).length` from the
constructor of `MultiMediaChoiceContent`. -/
def countCorrect (p : Params) : Nat :=
  (p.optionsCorrect.filter (fun b => b)).length

/-- `this.isSingleAnswer` from the constructor:
`questionType === 'auto' ? numberOfCorrectOptions === 1
                         : questionType === 'single'`. -/
def computeIsSingleAnswer (p : Params) : Bool :=
  match p.questionType with
  | QuestionType.auto => countCorrect p == 1
  | QuestionType.single => true
  | QuestionType.multiple => false

/-- The engine state built by the `MultiMediaChoiceContent` constructor:
every option starts unselected (`aria-checked="false"`) and enabled
(`enable()` is called in the `MultiMediaChoiceOption` constructor), and
`lastSelectedRadioButtonOption` starts as `null`. -/
def initContent (p : Params) : Content :=
  { singlePoint := p.singlePoint
    passPercentage := p.passPercentage
    isSingleAnswer := computeIsSingleAnswer p
    numberOfCorrectOptions := countCorrect p
    options := p.optionsCorrect.map
      (fun b => { correct := b, selected := false, disabled := false })
    lastSelectedRadioButtonOption := none }

/-- Overwrite the `selected` flag of the option at index `j`
(`option.uncheck()` for `b = false`); no-op when `j` is out of range. -/
def setSelectedAt : List OptionState → Nat → Bool → List OptionState
  | [], _, _ => []
  | o :: rest, 0, b => { o with selected := b } :: rest
  | o :: rest, n + 1, b => o :: setSelectedAt rest n b

/-- Flip the `selected` flag of the option at index `j`
(`option.toggle()`); no-op when `j` is out of range. -/
def toggleAt : List OptionState → Nat → List OptionState
  | [], _ => []
  | o :: rest, 0 => { o with selected := !o.selected } :: rest
  | o :: rest, n + 1 => o :: toggleAt rest n

/-- `getSelectedOptions()`:
`this.options.filter(option => option.isSelected())`. -/
def getSelectedOptions (c : Content) : List OptionState :=
  c.options.filter (fun o => o.selected)

/-- `isAnyAnswerSelected()`: `this.getSelectedOptions().length > 0`. -/
def isAnyAnswerSelected (c : Content) : Bool :=
  decide (0 < (getSelectedOptions c).length)

/-- `isBlankCorrect()`: `this.numberOfCorrectOptions === 0`. -/
def isBlankCorrect (c : Content) : Bool :=
  c.numberOfCorrectOptions == 0

/-- The checkbox tally loop of `getScore()`:
`this.options.forEach(option => { if (option.isSelected())
 { option.isCorrect() ? score++ : score--; } })`, starting from 0. -/
def tallyRaw (l : List OptionState) : Int :=
  l.foldl
    (fun s o => if o.selected then (if o.correct then s + 1 else s - 1) else s)
    0

/-- IEEE-754 semantics of the source comparison `num / den >= p` for the
integer operands that occur in `getScore()` (`num = score * 100` with
`score >= 0`, `den = numberOfCorrectOptions`, `p = passPercentage`):
* `den = 0, num = 0`: `0/0` is `NaN` and every comparison with `NaN` is
  false;
* `den = 0, num > 0`: `num/0` is `+Infinity`, which is `>=` any finite `p`;
* `den > 0`: the double comparison agrees with the exact rational
  comparison `num/den >= p`, i.e. `p * den <= num`, because the operands
  are small exact integers and rounding `num/den` to the nearest double
  perturbs it by far less than the gap `1/den` to the nearest integer
  threshold. -/
def jsDivGe (num : Int) (den : Nat) (p : Int) : Bool :=
  if den = 0 then
    if num = 0 then false else decide (0 < num)
  else
    decide (p * (den : Int) ≤ num)

/-- `getScore()` of `MultiMediaChoiceContent` (source lines 125-161),
branch for branch:
1. `if (singlePoint && passPercentage === 0) return 1;`
2. `if (!this.isAnyAnswerSelected()) return this.isBlankCorrect() ? 1 : 0;`
3. `if (this.isSingleAnswer) return
      this.lastSelectedRadioButtonOption.isCorrect() ? 1 : 0;`
   (a `null` value of `lastSelectedRadioButtonOption` makes this line throw,
   modelled as `Except.error ()`);
4. the checkbox tally, clamped with `Math.max(0, score)`;
5. `if (singlePoint) return (score * 100) / numberOfCorrectOptions >=
      passPercentage ? 1 : 0;`
6. `return score;`. -/
def getScore (c : Content) : Except Unit Int :=
  if c.singlePoint ∧ c.passPercentage = 0 then
    Except.ok 1
  else if isAnyAnswerSelected c = false then
    Except.ok (if isBlankCorrect c then 1 else 0)
  else if c.isSingleAnswer then
    match c.lastSelectedRadioButtonOption with
    | none => Except.error ()
    | some j =>
      match c.options.get? j with
      | none => Except.error ()
      | some o => Except.ok (if o.correct then 1 else 0)
  else
    let score := max 0 (tallyRaw c.options)
    if c.singlePoint then
      Except.ok
        (if jsDivGe (score * 100) c.numberOfCorrectOptions c.passPercentage
         then 1 else 0)
    else
      Except.ok score

/-- `getMaxScore()`: 1 when `singlePoint`, single-answer mode or
blank-correct, otherwise `numberOfCorrectOptions`. -/
def getMaxScore (c : Content) : Nat :=
  if c.singlePoint || c.isSingleAnswer || isBlankCorrect c then 1
  else c.numberOfCorrectOptions

/-- `toggleSelected(optionIndex)` (source lines 246-265).  The returned
`Nat` counts the `this.callbacks.triggerInteracted()` calls made (the
source has exactly one call site, reached on every non-early-returning
path).  An out-of-range index makes `option.isDisabled()` throw a
`TypeError` on `undefined`, modelled as `Except.error ()`; the throw
happens before any mutation, so no state change accompanies it. -/
def toggleSelected (c : Content) (i : Nat) : Except Unit (Content × Nat) :=
  match c.options.get? i with
  | none => Except.error ()
  | some o =>
    if o.disabled then Except.ok (c, 0)
    else if c.isSingleAnswer then
      if o.selected then Except.ok (c, 0)
      else
        let opts1 :=
          match c.lastSelectedRadioButtonOption with
          | some j => setSelectedAt c.options j false
          | none => c.options
        Except.ok
          ({ c with
              options := toggleAt opts1 i
              lastSelectedRadioButtonOption := some i }, 1)
    else
      Except.ok ({ c with options := toggleAt c.options i }, 1)

/-- `resetSelections()` (source lines 270-277): clear
`lastSelectedRadioButtonOption`, then `uncheck()` and `enable()` every
option. -/
def resetSelections (c : Content) : Content :=
  { c with
      lastSelectedRadioButtonOption := none
      options := c.options.map
        (fun o => { o with selected := false, disabled := false }) }

/-- Engine states reachable from the freshly constructed widget by any
sequence of `toggleSelected` and `resetSelections` calls.  A
`toggleSelected` call that throws leaves the state unchanged (the throw
precedes every mutation), so only successful calls contribute steps. -/
inductive Reachable (p : Params) : Content → Prop where
  | init : Reachable p (initContent p)
  | toggle {c c' : Content} {i e : Nat} :
      Reachable p c → toggleSelected c i = Except.ok (c', e) → Reachable p c'
  | reset {c : Content} :
      Reachable p c → Reachable p (resetSelections c)

/-- Guard sequence of `getScore()` under which control flow reaches the
division `(score * 100) / this.numberOfCorrectOptions` on source line 155:
the `passPercentage === 0` shortcut did not fire, an answer is selected,
the mode is not single-answer, and `singlePoint` is set. -/
def divisionReached (c : Content) : Bool :=
  (!(c.singlePoint && (c.passPercentage == 0)))
    && isAnyAnswerSelected c
    && (!c.isSingleAnswer)
    && c.singlePoint

/-- Number of selected options that are authored correct. -/
def countSelectedCorrect (c : Content) : Nat :=
  (c.options.filter (fun o => o.selected && o.correct)).length

/-- Number of selected options that are authored incorrect. -/
def countSelectedIncorrect (c : Content) : Nat :=
  (c.options.filter (fun o => o.selected && !o.correct)).length

/-- Modelled from the spec: `MultiMediaChoiceContent.getSelectedIndexes`
is called by `MultiMediaChoice.getCurrentState()` and by the xAPI module
but is missing from `src/`; the spec (section 6) describes it as
`getSelectedIndexes() -> ordered list of integer` of the currently
selected options.  `selectedIndexesFrom k l` lists, in order, `k + m` for
every position `m` of `l` holding a selected option. -/
def selectedIndexesFrom : Nat → List OptionState → List Nat
  | _, [] => []
  | k, o :: rest =>
    if o.selected then k :: selectedIndexesFrom (k + 1) rest
    else selectedIndexesFrom (k + 1) rest

/-- Modelled from the spec: the ordered list of indexes of the currently
selected options (spec section 6, `getSelectedIndexes`). -/
def getSelectedIndexes (c : Content) : List Nat :=
  selectedIndexesFrom 0 c.options

/-- Serializable snapshot returned by `getCurrentState()`: the spec
(sections 4.5 and 6) fixes the shape `{ answers: list of integer }`. -/
structure CurrentState where
  answers : List Nat
deriving DecidableEq, Repr

/-- Modelled from the spec: the helper `getCurrentState(selectedIndexes)`
of the xAPI module `h5p-multi-media-choice-xapi.js` imported by
`h5p-multi-media-choice.js` is missing from `src/` (only its caller is
present); per spec sections 4.5 and 6 it wraps the index list as
`{ answers: list of integer }`. -/
def xapiGetCurrentState (idxs : List Nat) : CurrentState :=
  { answers := idxs }

/-- `MultiMediaChoice.getCurrentState()` (source lines 324-326):
`getCurrentState(this.content.getSelectedIndexes())`. -/
def getCurrentState (c : Content) : CurrentState :=
  xapiGetCurrentState (getSelectedIndexes c)

/-- Modelled from the spec: one step of `restoreState` (spec section 4.5),
which is missing from `src/`.  It "replays `toggle(i)` ... respecting the
same mode-exclusivity rules as live interaction", skips "indexes
referencing nonexistent options ... silently" (spec section 7) and emits
no notification. -/
def restoreStep (c : Content) (i : Nat) : Content :=
  match c.options.get? i with
  | none => c
  | some o =>
    if o.disabled then c
    else if c.isSingleAnswer then
      if o.selected then c
      else
        let opts1 :=
          match c.lastSelectedRadioButtonOption with
          | some j => setSelectedAt c.options j false
          | none => c.options
        { c with
            options := toggleAt opts1 i
            lastSelectedRadioButtonOption := some i }
    else
      { c with options := toggleAt c.options i }

/-- Modelled from the spec: `restoreState(indexes)` (spec section 4.5),
missing from `src/`.  The second component counts the `interacted`
notifications emitted during the restore; the spec requires that none
are. -/
def restoreState (c : Content) (idxs : List Nat) : Content × Nat :=
  (idxs.foldl restoreStep c, 0)

/-- State projection of one replayed `toggleSelected` call: the new state
on success, the unchanged state when the call throws. -/
def toggleStateProj (c : Content) (i : Nat) : Content :=
  match toggleSelected c i with
  | Except.ok r => r.1
  | Except.error _ => c

/-- Concrete configuration for the `C1` counterexample: one authored-correct
option, `questionType = "single"`, `singlePoint = true`,
`passPercentage = 0`. -/
def exC1params : Params :=
  { optionsCorrect := [true]
    questionType := QuestionType.single
    singlePoint := true
    passPercentage := 0 }

/-- Concrete configuration for the `C2` counterexample: two options, none
authored correct, `questionType = "multiple"`, `singlePoint = true`,
`passPercentage = 50`. -/
def exC2params : Params :=
  { optionsCorrect := [false, false]
    questionType := QuestionType.multiple
    singlePoint := true
    passPercentage := 50 }

/-- The state reached from `initContent exC2params` by `toggleSelected 0`:
option 0 selected, everything else as constructed. -/
def exC2state : Content :=
  { singlePoint := true
    passPercentage := 50
    isSingleAnswer := false
    numberOfCorrectOptions := 0
    options :=
      [ { correct := false, selected := true, disabled := false },
        { correct := false, selected := false, disabled := false } ]
    lastSelectedRadioButtonOption := none }

/-- Concrete single-answer configuration with one correct option, used by
several witnesses. -/
def exSingleParams : Params :=
  { optionsCorrect := [true]
    questionType := QuestionType.single
    singlePoint := false
    passPercentage := 50 }

/-- The state reached from `initContent exSingleParams` by
`toggleSelected 0`. -/
def exSingleSel : Content :=
  { singlePoint := false
    passPercentage := 50
    isSingleAnswer := true
    numberOfCorrectOptions := 1
    options := [ { correct := true, selected := true, disabled := false } ]
    lastSelectedRadioButtonOption := some 0 }

/-- A state with one disabled option, used by the `C3` witness. -/
def exDisabled : Content :=
  { singlePoint := false
    passPercentage := 50
    isSingleAnswer := true
    numberOfCorrectOptions := 1
    options := [ { correct := true, selected := false, disabled := true } ]
    lastSelectedRadioButtonOption := none }

/-- Multi-answer state with two correct options selected, used by the `C6`
witness to show the score is not capped at 1. -/
def exMulti2 : Content :=
  { singlePoint := false
    passPercentage := 50
    isSingleAnswer := false
    numberOfCorrectOptions := 2
    options :=
      [ { correct := true, selected := true, disabled := false },
        { correct := true, selected := true, disabled := false },
        { correct := false, selected := false, disabled := false } ]
    lastSelectedRadioButtonOption := none }

/-- Scenario D of the spec: 3 options, 2 correct, `singlePoint`,
`passPercentage = 50`, exactly one correct option selected. -/
def exScenarioD : Content :=
  { singlePoint := true
    passPercentage := 50
    isSingleAnswer := false
    numberOfCorrectOptions := 2
    options :=
      [ { correct := true, selected := true, disabled := false },
        { correct := true, selected := false, disabled := false },
        { correct := false, selected := false, disabled := false } ]
    lastSelectedRadioButtonOption := none }

/-! ### Helper lemmas -/

theorem setSelectedAt_get? (l : List OptionState) (j k : Nat) (b : Bool) :
    (setSelectedAt l j b).get? k =
      if j = k then (l.get? k).map (fun o => { o with selected := b })
      else l.get? k := by
  induction l generalizing j k with
  | nil => simp [setSelectedAt]
  | cons o rest ih =>
    cases j with
    | zero =>
      cases k with
      | zero => simp [setSelectedAt]
      | succ k => simp [setSelectedAt]
    | succ j =>
      cases k with
      | zero => simp [setSelectedAt]
      | succ k =>
        simp only [setSelectedAt, List.get?]
        rw [ih j k]
        by_cases h : j = k <;> simp [h]

theorem toggleAt_get? (l : List OptionState) (i k : Nat) :
    (toggleAt l i).get? k =
      if i = k then (l.get? k).map (fun o => { o with selected := !o.selected })
      else l.get? k := by
  induction l generalizing i k with
  | nil => simp [toggleAt]
  | cons o rest ih =>
    cases i with
    | zero =>
      cases k with
      | zero => simp [toggleAt]
      | succ k => simp [toggleAt]
    | succ i =>
      cases k with
      | zero => simp [toggleAt]
      | succ k =>
        simp only [toggleAt, List.get?]
        rw [ih i k]
        by_cases h : i = k <;> simp [h]

theorem isAnyAnswerSelected_iff (c : Content) :
    isAnyAnswerSelected c = true ↔
      ∃ j o, c.options.get? j = some o ∧ o.selected = true := by
  unfold isAnyAnswerSelected getSelectedOptions
  rw [decide_eq_true_iff]
  constructor
  · intro h
    have hne : c.options.filter (fun o => o.selected) ≠ [] :=
      List.ne_nil_of_length_pos h
    obtain ⟨o, ho⟩ := List.exists_mem_of_ne_nil _ hne
    have hmem := List.mem_filter.mp ho
    obtain ⟨n, hn⟩ := List.get?_of_mem hmem.1
    exact ⟨n, o, hn, hmem.2⟩
  · rintro ⟨j, o, hget, hsel⟩
    have hmem : o ∈ c.options := List.get?_mem hget
    have : o ∈ c.options.filter (fun o => o.selected) :=
      List.mem_filter.mpr ⟨hmem, hsel⟩
    exact List.length_pos.mpr (List.ne_nil_of_mem this)

theorem tally_foldl_add (l : List OptionState) :
    ∀ s t : Int,
      l.foldl
        (fun s o =>
          if o.selected then (if o.correct then s + 1 else s - 1) else s)
        (s + t) =
        s + l.foldl
          (fun s o =>
            if o.selected then (if o.correct then s + 1 else s - 1) else s)
          t := by
  induction l with
  | nil => intro s t; simp
  | cons o rest ih =>
    intro s t
    simp only [List.foldl_cons]
    have hstep :
        (if o.selected then (if o.correct then s + t + 1 else s + t - 1)
         else s + t) =
          s + (if o.selected then (if o.correct then t + 1 else t - 1)
               else t) := by
      by_cases hs : o.selected <;> by_cases hc : o.correct <;>
        simp [hs, hc] <;> omega
    rw [hstep, ih]

theorem tallyRaw_cons (o : OptionState) (l : List OptionState) :
    tallyRaw (o :: l) =
      (if o.selected then (if o.correct then 1 else -1) else 0) + tallyRaw l := by
  have h := tally_foldl_add l
    (if o.selected then (if o.correct then 1 else -1) else 0) 0
  simp only [tallyRaw, List.foldl_cons]
  rw [show (if o.selected = true then
        (if o.correct = true then (0 : Int) + 1 else 0 - 1) else 0) =
      (if o.selected = true then (if o.correct = true then (1 : Int) else -1)
       else 0) + 0 from by
    by_cases hs : o.selected <;> by_cases hc : o.correct <;> simp [hs, hc]]
  exact h

theorem tallyRaw_eq_counts (l : List OptionState) :
    tallyRaw l =
      ((l.filter (fun o => o.selected && o.correct)).length : Int) -
        ((l.filter (fun o => o.selected && !o.correct)).length : Int) := by
  induction l with
  | nil => simp [tallyRaw]
  | cons o rest ih =>
    rw [tallyRaw_cons, ih]
    by_cases hs : o.selected <;> by_cases hc : o.correct <;>
      simp [hs, hc, List.filter_cons] <;> omega

theorem tallyRaw_nonpos (l : List OptionState)
    (h : ∀ o ∈ l, o.correct = false) : tallyRaw l ≤ 0 := by
  rw [tallyRaw_eq_counts]
  have hzero : l.filter (fun o => o.selected && o.correct) = [] := by
    rw [List.filter_eq_nil_iff]
    intro o ho
    simp [h o ho]
  rw [hzero]
  simp

theorem initContent_get? (p : Params) (j : Nat) (o : OptionState)
    (h : (initContent p).options.get? j = some o) :
    o.selected = false ∧ o.disabled = false := by
  simp only [initContent] at h
  rw [List.get?_map] at h
  obtain ⟨b, -, rfl⟩ := Option.map_eq_some'.mp h
  exact ⟨rfl, rfl⟩

theorem resetSelections_get? (c : Content) (j : Nat) (o : OptionState)
    (h : (resetSelections c).options.get? j = some o) :
    o.selected = false := by
  simp only [resetSelections] at h
  rw [List.get?_map] at h
  obtain ⟨o0, -, rfl⟩ := Option.map_eq_some'.mp h
  rfl

theorem toggleSelected_spec (c : Content) (i : Nat) :
    (c.options.get? i = none ∧ toggleSelected c i = Except.error ()) ∨
    (∃ o, c.options.get? i = some o ∧ o.disabled = true ∧
      toggleSelected c i = Except.ok (c, 0)) ∨
    (∃ o, c.options.get? i = some o ∧ o.disabled = false ∧
      c.isSingleAnswer = true ∧ o.selected = true ∧
      toggleSelected c i = Except.ok (c, 0)) ∨
    (∃ o, c.options.get? i = some o ∧ o.disabled = false ∧
      c.isSingleAnswer = true ∧ o.selected = false ∧
      toggleSelected c i = Except.ok
        ({ c with
            options := toggleAt
              (match c.lastSelectedRadioButtonOption with
               | some j => setSelectedAt c.options j false
               | none => c.options) i
            lastSelectedRadioButtonOption := some i }, 1)) ∨
    (∃ o, c.options.get? i = some o ∧ o.disabled = false ∧
      c.isSingleAnswer = false ∧
      toggleSelected c i = Except.ok
        ({ c with options := toggleAt c.options i }, 1)) := by
  cases hget : c.options.get? i with
  | none =>
    left
    exact ⟨rfl, by unfold toggleSelected; rw [hget]⟩
  | some o =>
    by_cases hd : o.disabled = true
    · right; left
      exact ⟨o, rfl, hd, by unfold toggleSelected; rw [hget]; simp [hd]⟩
    · have hd' : o.disabled = false := by simpa using hd
      by_cases hsingle : c.isSingleAnswer = true
      · by_cases hsel : o.selected = true
        · right; right; left
          exact ⟨o, rfl, hd', hsingle, hsel,
            by unfold toggleSelected; rw [hget]; simp [hd', hsingle, hsel]⟩
        · have hsel' : o.selected = false := by simpa using hsel
          right; right; right; left
          exact ⟨o, rfl, hd', hsingle, hsel',
            by unfold toggleSelected; rw [hget]; simp [hd', hsingle, hsel']⟩
      · have hsingle' : c.isSingleAnswer = false := by simpa using hsingle
        right; right; right; right
        exact ⟨o, rfl, hd', hsingle',
          by unfold toggleSelected; rw [hget]; simp [hd', hsingle']⟩

theorem reachable_lastSelected {p : Params} {c : Content}
    (h : Reachable p c) :
    c.isSingleAnswer = true →
      ∀ j o, c.options.get? j = some o → o.selected = true →
        c.lastSelectedRadioButtonOption = some j := by
  induction h with
  | init =>
    intro _ j o hget hsel
    exact absurd hsel (by simp [(initContent_get? p j o hget).1])
  | @toggle c c' i e hr heq ih =>
    rcases toggleSelected_spec c i with
      ⟨-, herr⟩ | ⟨o, -, -, hok⟩ | ⟨o, -, -, -, -, hok⟩ |
      ⟨o, hget, hd, hsingle, hsel, hok⟩ | ⟨o, -, -, hsingle, hok⟩
    · rw [herr] at heq; cases heq
    · rw [hok] at heq
      obtain ⟨rfl, -⟩ : c = c' ∧ (0 : Nat) = e := by
        have hp := Except.ok.inj heq
        exact ⟨congrArg Prod.fst hp, congrArg Prod.snd hp⟩
      exact ih
    · rw [hok] at heq
      obtain ⟨rfl, -⟩ : c = c' ∧ (0 : Nat) = e := by
        have hp := Except.ok.inj heq
        exact ⟨congrArg Prod.fst hp, congrArg Prod.snd hp⟩
      exact ih
    · rw [hok] at heq
      have hXc :
          ({ c with
              options := toggleAt
                (match c.lastSelectedRadioButtonOption with
                 | some j => setSelectedAt c.options j false
                 | none => c.options) i
              lastSelectedRadioButtonOption := some i } : Content) = c' :=
        congrArg Prod.fst (Except.ok.inj heq)
      have hopts : c'.options = toggleAt
          (match c.lastSelectedRadioButtonOption with
           | some j => setSelectedAt c.options j false
           | none => c.options) i := by
        rw [← hXc]
      have hlast2 : c'.lastSelectedRadioButtonOption = some i := by
        rw [← hXc]
      intro _ j o' hget' hsel'
      rw [hlast2]
      by_cases hji : j = i
      · rw [hji]
      · exfalso
        rw [hopts, toggleAt_get?] at hget'
        rw [if_neg (fun hh => hji hh.symm)] at hget'
        cases hlast : c.lastSelectedRadioButtonOption with
        | none =>
          rw [hlast] at hget'
          have hcontra := ih hsingle j o' hget' hsel'
          rw [hlast] at hcontra
          cases hcontra
        | some m =>
          rw [hlast] at hget'
          rw [setSelectedAt_get?] at hget'
          by_cases hmj : m = j
          · rw [if_pos hmj] at hget'
            obtain ⟨o0, -, rfl⟩ := Option.map_eq_some'.mp hget'
            cases hsel'
          · rw [if_neg hmj] at hget'
            have hcontra := ih hsingle j o' hget' hsel'
            rw [hlast] at hcontra
            exact hmj (Option.some.inj hcontra)
    · rw [hok] at heq
      have hXc : ({ c with options := toggleAt c.options i } : Content) = c' :=
        congrArg Prod.fst (Except.ok.inj heq)
      have hsing2 : c'.isSingleAnswer = c.isSingleAnswer := by
        rw [← hXc]
      intro hs
      rw [hsing2, hsingle] at hs
      cases hs
  | @reset c hr ih =>
    intro _ j o hget hsel
    exact absurd hsel (by simp [resetSelections_get? c j o hget])

theorem mem_selectedIndexesFrom (l : List OptionState) :
    ∀ k j, j ∈ selectedIndexesFrom k l ↔
      ∃ m o, j = k + m ∧ l.get? m = some o ∧ o.selected = true := by
  induction l with
  | nil =>
    intro k j
    simp [selectedIndexesFrom]
  | cons o rest ih =>
    intro k j
    by_cases hs : o.selected = true
    · simp only [selectedIndexesFrom, hs, if_true, List.mem_cons]
      constructor
      · rintro (rfl | hmem)
        · exact ⟨0, o, by omega, rfl, hs⟩
        · obtain ⟨m, o', rfl, hget, hsel⟩ := (ih (k + 1) j).mp hmem
          exact ⟨m + 1, o', by omega, by simpa using hget, hsel⟩
      · rintro ⟨m, o', rfl, hget, hsel⟩
        cases m with
        | zero => left; omega
        | succ m =>
          right
          exact (ih (k + 1) (k + (m + 1))).mpr
            ⟨m, o', by omega, by simpa using hget, hsel⟩
    · have hs' : o.selected = false := by simpa using hs
      simp only [selectedIndexesFrom, hs', if_false, Bool.false_eq_true]
      rw [ih (k + 1) j]
      constructor
      · rintro ⟨m, o', rfl, hget, hsel⟩
        exact ⟨m + 1, o', by omega, by simpa using hget, hsel⟩
      · rintro ⟨m, o', rfl, hget, hsel⟩
        cases m with
        | zero =>
          exfalso
          rw [List.get?_cons_zero] at hget
          obtain rfl := Option.some.inj hget
          rw [hs'] at hsel
          cases hsel
        | succ m =>
          exact ⟨m, o', by omega, by simpa using hget, hsel⟩

theorem bound_selectedIndexesFrom (l : List OptionState) (k j : Nat)
    (h : j ∈ selectedIndexesFrom k l) : k ≤ j := by
  obtain ⟨m, o, rfl, -, -⟩ := (mem_selectedIndexesFrom l k j).mp h
  omega

theorem pairwise_selectedIndexesFrom (l : List OptionState) :
    ∀ k, List.Pairwise (· < ·) (selectedIndexesFrom k l) := by
  induction l with
  | nil =>
    intro k
    simp [selectedIndexesFrom]
  | cons o rest ih =>
    intro k
    by_cases hs : o.selected = true
    · simp only [selectedIndexesFrom, hs, if_true]
      refine List.Pairwise.cons ?_ (ih (k + 1))
      intro j hj
      have := bound_selectedIndexesFrom rest (k + 1) j hj
      omega
    · have hs' : o.selected = false := by simpa using hs
      simp only [selectedIndexesFrom, hs', if_false, Bool.false_eq_true]
      exact ih (k + 1)

theorem restoreStep_eq (c : Content) (i : Nat) :
    restoreStep c i = toggleStateProj c i := by
  unfold restoreStep toggleStateProj toggleSelected
  cases hget : c.options.get? i with
  | none => rfl
  | some o =>
    by_cases hd : o.disabled = true
    · simp [hd]
    · have hd' : o.disabled = false := by simpa using hd
      by_cases hsng : c.isSingleAnswer = true
      · by_cases hsel : o.selected = true
        · simp [hd', hsng, hsel]
        · have hsel' : o.selected = false := by simpa using hsel
          simp [hd', hsng, hsel']
      · have h2 : c.isSingleAnswer = false := by simpa using hsng
        simp [hd', h2]

/-! ### Claim theorems -/

/-- Claim C1, counterexample: the claim asserts that with at least one
authored-correct option and no selection, `getScore()` returns 0 regardless
of the `singlePoint` and `passPercentage` settings.  In the freshly
constructed engine for one correct option with `singlePoint = true` and
`passPercentage = 0` nothing is selected, yet `getScore()` returns 1 (the
`passPercentage === 0` shortcut on source line 127 fires before the
no-selection branch), not the claimed 0. -/
theorem C1_counterexample :
    isAnyAnswerSelected (initContent exC1params) = false ∧
    (initContent exC1params).numberOfCorrectOptions = 1 ∧
    (initContent exC1params).singlePoint = true ∧
    (initContent exC1params).passPercentage = 0 ∧
    getScore (initContent exC1params) = Except.ok 1 :=
  ⟨rfl, rfl, rfl, rfl, rfl⟩

/-- Claim C1 (amended): in every state in which no option is selected,
`getScore()` returns 1 when `singlePoint` is set and `passPercentage` is 0;
otherwise it returns 1 if zero options are authored correct and 0 if at
least one option is authored correct. -/
theorem C1_amended_theorem (c : Content)
    (h : isAnyAnswerSelected c = false) :
    getScore c = Except.ok
      (if c.singlePoint ∧ c.passPercentage = 0 then 1
       else if c.numberOfCorrectOptions = 0 then 1 else 0) := by
  unfold getScore
  by_cases hsp : c.singlePoint ∧ c.passPercentage = 0
  · rw [if_pos hsp, if_pos hsp]
  · rw [if_neg hsp, if_neg hsp, if_pos h]
    simp [isBlankCorrect]

/-- Claim C1, witness: the amended theorem applied to the counterexample
configuration. -/
theorem C1_witness :
    isAnyAnswerSelected (initContent exC1params) = false ∧
    getScore (initContent exC1params) = Except.ok
      (if (initContent exC1params).singlePoint ∧
          (initContent exC1params).passPercentage = 0 then 1
       else if (initContent exC1params).numberOfCorrectOptions = 0 then 1
       else 0) :=
  ⟨rfl, C1_amended_theorem (initContent exC1params) rfl⟩

/-- Claim C2, counterexample: the claim asserts that with zero
authored-correct options every reachable state bypasses the `singlePoint`
division branch and the result is determined by the no-selection branch.
Starting from the engine for two incorrect options with
`singlePoint = true`, `passPercentage = 50`, one `toggleSelected(0)` call
reaches a state in which all guards leading to the division on source line
155 hold (`divisionReached`) while `numberOfCorrectOptions = 0`, so the
division is evaluated with denominator 0; `getScore()` returns 0, not the
1 that the no-selection (blank-correct) branch would produce. -/
theorem C2_counterexample :
    Reachable exC2params exC2state ∧
    exC2state.numberOfCorrectOptions = 0 ∧
    divisionReached exC2state = true ∧
    getScore exC2state = Except.ok 0 ∧
    isBlankCorrect exC2state = true :=
  ⟨Reachable.toggle Reachable.init
      (show toggleSelected (initContent exC2params) 0 =
        Except.ok (exC2state, 1) from rfl),
   rfl, rfl, rfl, rfl⟩

/-- Claim C2 (amended): with zero authored-correct options under
`singlePoint`, any state with an answer selected (multi-answer mode,
`passPercentage` nonzero) does reach the division with denominator 0; the
JavaScript evaluation `(0 * 100) / 0` is `NaN`, the comparison with
`passPercentage` is false, and `getScore()` returns 0.  Only the
no-selection states are short-circuited by the blank-correct branch. -/
theorem C2_amended_theorem (c : Content)
    (hn : c.numberOfCorrectOptions = 0)
    (hall : ∀ o ∈ c.options, o.correct = false)
    (hdiv : divisionReached c = true) :
    getScore c = Except.ok 0 := by
  simp only [divisionReached, Bool.and_eq_true, Bool.not_eq_true'] at hdiv
  obtain ⟨⟨⟨hnot, hsel⟩, hnotsingle⟩, hsp⟩ := hdiv
  have hp0 : c.passPercentage ≠ 0 := by
    intro hp
    rw [hsp, hp] at hnot
    simp at hnot
  have hscore : max 0 (tallyRaw c.options) = 0 := by
    have := tallyRaw_nonpos c.options hall
    omega
  unfold getScore
  rw [if_neg (by rintro ⟨-, hp⟩; exact hp0 hp)]
  rw [if_neg (by rw [hsel]; simp)]
  rw [if_neg (by rw [hnotsingle]; simp)]
  simp only [hscore, hsp, if_true, jsDivGe, hn]
  simp

/-- Claim C2, witness: the amended theorem applied to the reachable
counterexample state. -/
theorem C2_witness :
    exC2state.numberOfCorrectOptions = 0 ∧
    divisionReached exC2state = true ∧
    getScore exC2state = Except.ok 0 :=
  ⟨rfl, rfl, C2_amended_theorem exC2state rfl (by decide) rfl⟩

/-- Claim C3, counterexample: the claim asserts that `toggleSelected` on an
out-of-range index throws no exception.  On the engine for a single option,
`toggleSelected(5)` evaluates `this.options[5].isDisabled()` on
`undefined` and throws a `TypeError` (modelled as `Except.error ()`). -/
theorem C3_counterexample :
    toggleSelected (initContent exSingleParams) 5 = Except.error () := rfl

/-- Claim C3 (amended): toggling an option whose `disabled` flag is set is
a no-op — no exception, no state change, no notification; toggling an
out-of-range index, however, throws a `TypeError` (a caller error, as in
spec section 6) rather than failing silently. -/
theorem C3_amended_theorem (c : Content) (i : Nat) :
    (∀ o, c.options.get? i = some o → o.disabled = true →
      toggleSelected c i = Except.ok (c, 0)) ∧
    (c.options.get? i = none → toggleSelected c i = Except.error ()) := by
  constructor
  · intro o hget hd
    unfold toggleSelected
    rw [hget]
    simp [hd]
  · intro hget
    unfold toggleSelected
    rw [hget]

/-- Claim C3, witness: the amended theorem applied to a state with one
disabled option (index 0 disabled, index 5 out of range). -/
theorem C3_witness :
    toggleSelected exDisabled 0 = Except.ok (exDisabled, 0) ∧
    toggleSelected exDisabled 5 = Except.error () :=
  ⟨(C3_amended_theorem exDisabled 0).1
      { correct := true, selected := false, disabled := true } rfl rfl,
   (C3_amended_theorem exDisabled 5).2 rfl⟩

/-- Claim C4: for every selection state, `getCurrentState()` returns an
object whose `answers` field equals the ordered list of integer indexes of
the currently selected options: membership in `answers` characterizes
exactly the selected indexes, and the list is strictly increasing (the
options' order).  The field is a list of integers by construction
(`CurrentState.answers : List Nat`), not a string, and `getCurrentState`
is a pure projection of the engine state (its type reads the state and
returns no modified state). -/
theorem C4_theorem (c : Content) :
    (getCurrentState c).answers = getSelectedIndexes c ∧
    (∀ j, j ∈ (getCurrentState c).answers ↔
      ∃ o, c.options.get? j = some o ∧ o.selected = true) ∧
    List.Pairwise (· < ·) (getCurrentState c).answers := by
  refine ⟨rfl, ?_, ?_⟩
  · intro j
    show j ∈ selectedIndexesFrom 0 c.options ↔ _
    rw [mem_selectedIndexesFrom]
    constructor
    · rintro ⟨m, o, rfl, hget, hsel⟩
      exact ⟨o, by simpa using hget, hsel⟩
    · rintro ⟨o, hget, hsel⟩
      exact ⟨j, o, by omega, hget, hsel⟩
  · exact pairwise_selectedIndexesFrom c.options 0

/-- Claim C5: `restoreState(indexes)` leaves the engine in exactly the
state obtained by replaying `toggleSelected(i)` for each index in the
given order (errors from invalid indexes are absorbed, leaving the state
unchanged, exactly like the spec's silent skip), and emits zero
`interacted` notifications during the replay. -/
theorem C5_theorem (c : Content) (idxs : List Nat) :
    (restoreState c idxs).2 = 0 ∧
    (restoreState c idxs).1 = idxs.foldl toggleStateProj c := by
  refine ⟨rfl, ?_⟩
  show idxs.foldl restoreStep c = idxs.foldl toggleStateProj c
  have hfun : restoreStep = toggleStateProj :=
    funext fun c => funext fun i => restoreStep_eq c i
  rw [hfun]

/-- Claim C6: in multi-answer mode without `singlePoint`, whenever at least
one option is selected, `getScore()` equals
`max 0 (selected-correct count - selected-incorrect count)`: negative
tallies clamp to 0 and the result is not capped at 1 or at the maximum
score (the equality pins the exact value). -/
theorem C6_theorem (c : Content)
    (hsingle : c.isSingleAnswer = false)
    (hsp : c.singlePoint = false)
    (hsel : isAnyAnswerSelected c = true) :
    getScore c = Except.ok
      (max 0 ((countSelectedCorrect c : Int) -
        (countSelectedIncorrect c : Int))) := by
  unfold getScore
  rw [if_neg (by rintro ⟨h1, -⟩; rw [hsp] at h1; cases h1)]
  rw [if_neg (by rw [hsel]; simp)]
  rw [if_neg (by rw [hsingle]; simp)]
  simp only [hsp, Bool.false_eq_true, if_false]
  rw [tallyRaw_eq_counts]
  rfl

/-- Claim C6, witness: two correct options selected give score 2,
exceeding 1 — the multi-answer default score is not capped. -/
theorem C6_witness :
    isAnyAnswerSelected exMulti2 = true ∧
    getScore exMulti2 = Except.ok
      (max 0 ((countSelectedCorrect exMulti2 : Int) -
        (countSelectedIncorrect exMulti2 : Int))) ∧
    getScore exMulti2 = Except.ok 2 :=
  ⟨rfl, C6_theorem exMulti2 rfl rfl rfl, rfl⟩

/-- Claim C7: in multi-answer mode with `singlePoint`, at least one option
selected and at least one authored-correct option, `getScore()` returns 1
exactly when `raw * 100 / numberOfCorrectOptions >= passPercentage` holds
in exact rational arithmetic, where `raw` is the selected tally floored at
0.  (For `passPercentage = 0` the shortcut branch returns 1, which agrees
with the comparison since `raw >= 0`.) -/
theorem C7_theorem (c : Content)
    (hsingle : c.isSingleAnswer = false)
    (hsp : c.singlePoint = true)
    (hsel : isAnyAnswerSelected c = true)
    (hn : 1 ≤ c.numberOfCorrectOptions) :
    getScore c = Except.ok
      (if (c.passPercentage : ℚ) ≤
          ((max 0 (tallyRaw c.options) : Int) : ℚ) * 100 /
            (c.numberOfCorrectOptions : ℚ)
       then 1 else 0) := by
  have hnpos : (0 : ℚ) < (c.numberOfCorrectOptions : ℚ) := by
    exact_mod_cast Nat.lt_of_lt_of_le Nat.zero_lt_one hn
  have hrawpos : (0 : Int) ≤ max 0 (tallyRaw c.options) := le_max_left 0 _
  by_cases hp : c.passPercentage = 0
  · have h1 : getScore c = Except.ok 1 := by
      unfold getScore
      rw [if_pos ⟨hsp, hp⟩]
    rw [h1]
    have hcond : (c.passPercentage : ℚ) ≤
        ((max 0 (tallyRaw c.options) : Int) : ℚ) * 100 /
          (c.numberOfCorrectOptions : ℚ) := by
      rw [hp]
      apply div_nonneg _ (le_of_lt hnpos)
      push_cast
      exact mul_nonneg (le_max_left 0 _) (by norm_num)
    rw [if_pos hcond]
  · unfold getScore
    rw [if_neg (by rintro ⟨-, h2⟩; exact hp h2)]
    rw [if_neg (by rw [hsel]; simp)]
    rw [if_neg (by rw [hsingle]; simp)]
    rw [if_pos hsp]
    congr 1
    have hne : c.numberOfCorrectOptions ≠ 0 := by omega
    have hiff : (c.passPercentage * (c.numberOfCorrectOptions : Int) ≤
        max 0 (tallyRaw c.options) * 100) ↔
        ((c.passPercentage : ℚ) ≤
          ((max 0 (tallyRaw c.options) : Int) : ℚ) * 100 /
            (c.numberOfCorrectOptions : ℚ)) := by
      rw [le_div_iff hnpos]
      constructor
      · intro h
        exact_mod_cast h
      · intro h
        exact_mod_cast h
    by_cases hc : c.passPercentage * (c.numberOfCorrectOptions : Int) ≤
        max 0 (tallyRaw c.options) * 100
    · rw [show jsDivGe (max 0 (tallyRaw c.options) * 100)
          c.numberOfCorrectOptions c.passPercentage = true from by
        unfold jsDivGe
        rw [if_neg hne]
        simpa using hc]
      rw [if_pos (hiff.mp hc), if_pos rfl]
    · rw [show jsDivGe (max 0 (tallyRaw c.options) * 100)
          c.numberOfCorrectOptions c.passPercentage = false from by
        unfold jsDivGe
        rw [if_neg hne]
        simpa using hc]
      rw [if_neg (fun hq => hc (hiff.mpr hq))]
      simp

/-- Claim C7, witness: spec Scenario D — 3 options, 2 correct,
`singlePoint`, `passPercentage = 50`, one correct option selected:
`(1 * 100) / 2 = 50 >= 50`, so the score is 1. -/
theorem C7_witness :
    isAnyAnswerSelected exScenarioD = true ∧
    1 ≤ exScenarioD.numberOfCorrectOptions ∧
    getScore exScenarioD = Except.ok
      (if (exScenarioD.passPercentage : ℚ) ≤
          ((max 0 (tallyRaw exScenarioD.options) : Int) : ℚ) * 100 /
            (exScenarioD.numberOfCorrectOptions : ℚ)
       then 1 else 0) ∧
    getScore exScenarioD = Except.ok 1 :=
  ⟨rfl, by decide,
   C7_theorem exScenarioD rfl rfl rfl (by decide), rfl⟩

/-- Claim C8: in single-answer mode, after any sequence of `toggleSelected`
(and `resetSelections`) calls starting from the freshly constructed
all-unselected engine, at most one option is selected: any two selected
positions coincide. -/
theorem C8_theorem (p : Params) (c : Content)
    (h : Reachable p c) (hs : c.isSingleAnswer = true)
    (j k : Nat) (o1 o2 : OptionState)
    (hj : c.options.get? j = some o1) (hk : c.options.get? k = some o2)
    (hs1 : o1.selected = true) (hs2 : o2.selected = true) : j = k := by
  have h1 := reachable_lastSelected h hs j o1 hj hs1
  have h2 := reachable_lastSelected h hs k o2 hk hs2
  rw [h1] at h2
  exact Option.some.inj h2

/-- Claim C8, witness: the theorem applied to the reachable state obtained
by one `toggleSelected(0)` call on a single-answer engine. -/
theorem C8_witness : (0 : Nat) = 0 :=
  C8_theorem exSingleParams exSingleSel
    (Reachable.toggle Reachable.init
      (show toggleSelected (initContent exSingleParams) 0 =
        Except.ok (exSingleSel, 1) from rfl))
    rfl 0 0 { correct := true, selected := true, disabled := false }
    { correct := true, selected := true, disabled := false } rfl rfl rfl rfl

/-- Claim C9: a `toggleSelected` call on an existing option emits the
`interacted` notification exactly once when it is not a no-op (the option
is enabled and, in single-answer mode, not already selected) and the state
then actually changes; a no-op call (disabled option, or re-selecting the
already selected option in single-answer mode) emits no notification and
leaves the state unchanged.  The `Nat` component counts the
`triggerInteracted()` calls. -/
theorem C9_theorem (c : Content) (i : Nat) (o : OptionState)
    (hget : c.options.get? i = some o) :
    (o.disabled = true → toggleSelected c i = Except.ok (c, 0)) ∧
    (o.disabled = false → c.isSingleAnswer = true → o.selected = true →
      toggleSelected c i = Except.ok (c, 0)) ∧
    (o.disabled = false → (c.isSingleAnswer = false ∨ o.selected = false) →
      ∃ c', toggleSelected c i = Except.ok (c', 1) ∧ c' ≠ c) := by
  refine ⟨?_, ?_, ?_⟩
  · intro hd
    unfold toggleSelected
    rw [hget]
    simp [hd]
  · intro hd hsng hsel
    unfold toggleSelected
    rw [hget]
    simp [hd, hsng, hsel]
  · intro hd hcase
    by_cases hsng : c.isSingleAnswer = true
    · have hsel : o.selected = false := by
        rcases hcase with h1 | h2
        · rw [hsng] at h1
          cases h1
        · exact h2
      refine ⟨{ c with
          options := toggleAt
            (match c.lastSelectedRadioButtonOption with
             | some j => setSelectedAt c.options j false
             | none => c.options) i
          lastSelectedRadioButtonOption := some i }, ?_, ?_⟩
      · unfold toggleSelected
        rw [hget]
        simp [hd, hsng, hsel]
      · intro hEq
        have hopt : (toggleAt
            (match c.lastSelectedRadioButtonOption with
             | some j => setSelectedAt c.options j false
             | none => c.options) i).get? i =
            some { o with selected := true } := by
          rw [toggleAt_get?, if_pos rfl]
          cases hlast : c.lastSelectedRadioButtonOption with
          | none =>
            rw [hget]
            simp [hsel]
          | some m =>
            rw [setSelectedAt_get?]
            by_cases hmi : m = i
            · rw [if_pos hmi, hget]
              simp
            · rw [if_neg hmi, hget]
              simp [hsel]
        have hsame : c.options.get? i = some { o with selected := true } := by
          conv_lhs => rw [← congrArg Content.options hEq]
          exact hopt
        rw [hget] at hsame
        have hx := congrArg OptionState.selected (Option.some.inj hsame)
        rw [hsel] at hx
        cases hx
    · have hsng' : c.isSingleAnswer = false := by simpa using hsng
      refine ⟨{ c with options := toggleAt c.options i }, ?_, ?_⟩
      · unfold toggleSelected
        rw [hget]
        simp [hd, hsng']
      · intro hEq
        have hopt : (toggleAt c.options i).get? i =
            some { o with selected := !o.selected } := by
          rw [toggleAt_get?, if_pos rfl, hget]
          rfl
        have hsame : c.options.get? i =
            some { o with selected := !o.selected } := by
          conv_lhs => rw [← congrArg Content.options hEq]
          exact hopt
        rw [hget] at hsame
        have hx := congrArg OptionState.selected (Option.some.inj hsame)
        revert hx
        cases o.selected <;> simp

/-- Claim C9, witness: the theorem applied to concrete states — a disabled
option (no-op, no notification), a selected radio option (no-op, no
notification), and an unselected radio option (one notification, state
changed). -/
theorem C9_witness :
    toggleSelected exDisabled 0 = Except.ok (exDisabled, 0) ∧
    toggleSelected exSingleSel 0 = Except.ok (exSingleSel, 0) ∧
    (∃ c', toggleSelected (initContent exSingleParams) 0 =
      Except.ok (c', 1) ∧ c' ≠ initContent exSingleParams) :=
  ⟨(C9_theorem exDisabled 0
      { correct := true, selected := false, disabled := true } rfl).1 rfl,
   (C9_theorem exSingleSel 0
      { correct := true, selected := true, disabled := false } rfl).2.1
      rfl rfl rfl,
   (C9_theorem (initContent exSingleParams) 0
      { correct := true, selected := false, disabled := false } rfl).2.2
      rfl (Or.inr rfl)⟩

/-- Claim C10: in single-answer mode, every state reachable by
`toggleSelected` and `resetSelections` calls in which at least one option
is selected has `lastSelectedRadioButtonOption` non-null and pointing to
the selected option, and `getScore()` therefore never performs a null
dereference (it returns a value, never the error). -/
theorem C10_theorem (p : Params) (c : Content)
    (h : Reachable p c) (hs : c.isSingleAnswer = true)
    (hsel : isAnyAnswerSelected c = true) :
    ∃ j o, c.lastSelectedRadioButtonOption = some j ∧
      c.options.get? j = some o ∧ o.selected = true ∧
      ∃ z, getScore c = Except.ok z := by
  obtain ⟨j, o, hget, hosel⟩ := (isAnyAnswerSelected_iff c).mp hsel
  have hlast := reachable_lastSelected h hs j o hget hosel
  refine ⟨j, o, hlast, hget, hosel, ?_⟩
  by_cases hsp : c.singlePoint ∧ c.passPercentage = 0
  · exact ⟨1, by unfold getScore; rw [if_pos hsp]⟩
  · refine ⟨if o.correct then 1 else 0, ?_⟩
    unfold getScore
    rw [if_neg hsp]
    rw [if_neg (by rw [hsel]; simp)]
    rw [if_pos hs, hlast]
    simp only [hget]

/-- Claim C10, witness: the theorem applied to the reachable state with
the single option selected. -/
theorem C10_witness :
    ∃ j o, exSingleSel.lastSelectedRadioButtonOption = some j ∧
      exSingleSel.options.get? j = some o ∧ o.selected = true ∧
      ∃ z, getScore exSingleSel = Except.ok z :=
  C10_theorem exSingleParams exSingleSel
    (Reachable.toggle Reachable.init
      (show toggleSelected (initContent exSingleParams) 0 =
        Except.ok (exSingleSel, 1) from rfl))
    rfl rfl
